import Mathlib

/-!
Shallow embedding of the did-it-hail core pipeline
(src/did_it_hail/mosaic.py, src/did_it_hail/ingest/transform.py,
src/did_it_hail/ingest/store.py) and proofs about it.

Conventions:
- float arrays become lists of rationals; NaN ("no data") cells become
  `Option ℚ` with `none` for NaN;
- datetimes become either `ℕ` time stamps (mosaic bucketing, where only
  ordering and differences matter) or an explicit civil `DateTime`
  structure (repository date bucketing);
- nothing here performs I/O: logging, directory creation and file writes
  are dropped, the value-level computations are kept.
-/

/-! ### Grids and layers -/

/-- A reference-aligned raster layer: rows of cells, `none` marking a NaN
(no-data) cell, as produced by resampling and reprojection. -/
abbrev Layer := List (List (Option ℚ))

/-- Cell access with xarray-style positional indexing; out-of-range reads
default to `none` (no data). -/
def cellO (g : Layer) (i j : ℕ) : Option ℚ :=
  (g.getD i []).getD j none

/-- Elementwise reduction over a stack of aligned layers: the output shape is
the first layer's shape (all stacked layers share the reference grid), and the
cell at `(i, j)` reduces the list of the stacked layers' `(i, j)` cells.
This models `xr.concat(grids, dim="z")` followed by a reduction over `"z"`. -/
def elementwise {β : Type} (f : List (Option ℚ) → β) (grids : List Layer) :
    List (List β) :=
  let g0 := grids.headD []
  (List.range g0.length).map fun i =>
    (List.range (g0.headD []).length).map fun j =>
      f (grids.map fun g => cellO g i j)

/-- The xarray `max` reduction with its default `skipna=True`: NaN values are
skipped; if every value is NaN the result is NaN. -/
def nanmax (vs : List (Option ℚ)) : Option ℚ :=
  match vs.filterMap id with
  | [] => none
  | a :: rest => some (rest.foldl max a)

/-- The xarray `sum` reduction with its default `skipna=True`: NaN values are
skipped; the sum of an all-NaN (or empty) cell stack is `0`, never NaN. -/
def nansum (vs : List (Option ℚ)) : ℚ :=
  (vs.filterMap id).sum

/-- Per-bucket reduction from `mosaic.main`:
`xr.concat(data, dim="z").max("z")` on a non-empty list of layers. -/
def concat_max (grids : List Layer) : Layer :=
  elementwise nanmax grids

/-- Cross-bucket reduction from `mosaic.main`:
`xr.concat(list(slices_reduced.values()), dim="z").sum("z")`. -/
def sum_layers (grids : List Layer) : List (List ℚ) :=
  elementwise nansum grids

/-- Error raised by `xarray.concat` when given an empty sequence of objects
("must supply at least one object to concatenate", a ValueError). -/
inductive MosaicError : Type
  | emptyConcat
deriving DecidableEq

/-- Fallible per-bucket reduction: `xr.concat` raises on an empty bucket. -/
def concat_max_e (grids : List Layer) : Except MosaicError Layer :=
  if grids.isEmpty then .error .emptyConcat else .ok (concat_max grids)

/-- Fallible summation stage: `xr.concat` raises when there are no buckets. -/
def concat_sum_e (grids : List Layer) : Except MosaicError (List (List ℚ)) :=
  if grids.isEmpty then .error .emptyConcat else .ok (sum_layers grids)

/-- The dict comprehension of `mosaic.main` mapping every time slice to its
max-reduced layer; the first empty bucket raises. -/
def reduce_slices : List (List Layer) → Except MosaicError (List Layer)
  | [] => .ok []
  | b :: rest => do
      let g ← concat_max_e b
      let gs ← reduce_slices rest
      pure (g :: gs)

/-- The per-day mosaic computation of `mosaic.main` after bucketing: reduce
each bucket by elementwise max, then sum the reduced buckets elementwise. -/
def mosaic_of_slices (slices : List (List Layer)) :
    Except MosaicError (List (List ℚ)) := do
  let reduced ← reduce_slices slices
  concat_sum_e reduced

/-- Replace every no-data cell of a layer by `0`, keeping data cells. -/
def fillZero (g : Layer) : List (List ℚ) :=
  g.map fun row => row.map fun o => o.getD 0

/-! ### Temporal bucketing (`mosaic.slice_by_time`) -/

/-- Minimum of the data keys, as `min(data_by_time.keys())`; Python raises on
an empty dict, the model returns a junk `0` there (theorems assume non-empty
input where it matters). -/
def minKey {α : Type} (data : List (ℕ × α)) : ℕ :=
  match data with
  | [] => 0
  | p :: rest => rest.foldl (fun m q => min m q.1) p.1

/-- Maximum of the data keys, as `max(data_by_time.keys())`. -/
def maxKey {α : Type} (data : List (ℕ × α)) : ℕ :=
  match data with
  | [] => 0
  | p :: rest => rest.foldl (fun m q => max m q.1) p.1

/-- The slice membership comprehension of `slice_by_time`:
`[da for time, da in data_by_time.items() if start <= time < end_time]`. -/
def matches_in {α : Type} (data : List (ℕ × α)) (s e : ℕ) : List α :=
  data.filterMap fun p => if s ≤ p.1 ∧ p.1 < e then some p.2 else none

/-- The `while start < end` loop of `slice_by_time`: emit the bucket
`[start, start + delta)` with its matches and advance `start` by `delta`
while `start < stop`.  The Python loop never terminates for `delta = 0`;
the model stops there instead, which no claim depends on. -/
def slice_loop {α : Type} (data : List (ℕ × α)) (delta : ℕ) (start stop : ℕ) :
    List ((ℕ × ℕ) × List α) :=
  if h : 0 < delta ∧ start < stop then
    ((start, start + delta), matches_in data start (start + delta)) ::
      slice_loop data delta (start + delta) stop
  else []
termination_by stop - start
decreasing_by omega

/-- `mosaic.slice_by_time`: bucket the keyed data into `delta`-wide half-open
windows walking forward from the minimum key while strictly below the maximum
key.  Buckets are kept in creation order (Python dict insertion order). -/
def slice_by_time {α : Type} (data : List (ℕ × α)) (delta : ℕ) :
    List ((ℕ × ℕ) × List α) :=
  slice_loop data delta (minKey data) (maxKey data)

/-- Number of windows the loop of `slice_by_time` emits between `lo` and
`hi`: the ceiling of `(hi - lo) / delta`. -/
def numWindows (lo hi delta : ℕ) : ℕ :=
  (hi - lo + delta - 1) / delta

/-! ### Hail index (`transform.get_hail_index`) -/

/-- Inclusive classification-code range for hail, `HAIL_CLASSIFICATION_RANGE`. -/
def HAIL_CLASSIFICATION_RANGE : Int × Int := (10, 12)

/-- `transform.get_hail_index` on the classification grid:
`da.where(da >= 10).where(da <= 12)` masks non-hail codes to NaN, `- 9`
rescales to 1..3, `fillna(0)` maps the masked cells to 0. -/
def get_hail_index (da : List (List Int)) : List (List Int) :=
  let hail := da.map fun row => row.map fun v =>
    if HAIL_CLASSIFICATION_RANGE.1 ≤ v then some v else none
  let hail := hail.map fun row => row.map fun o =>
    o.bind fun v => if v ≤ HAIL_CLASSIFICATION_RANGE.2 then some v else none
  let hail := hail.map fun row => row.map (Option.map fun v => v - 9)
  hail.map fun row => row.map fun o => o.getD 0

/-! ### Regular-grid resampling (`transform.resample_to_regular_grid`)

The scipy interpolant built by `griddata` from the scattered source points is
modelled as an abstract function `F : ℚ → ℚ → ℚ` of the query point
`(y, x)`; the claims proved below (shape, axis monotonicity, orientation) do
not depend on which interpolant the library produces, only on where it is
evaluated and how the result array is rearranged. -/

/-- Minimum entry of a 2-d float array, `arr.min()`; junk `0` on the empty
array (where numpy raises). -/
def npmin (m : List (List ℚ)) : ℚ :=
  match m.flatten with
  | [] => 0
  | a :: rest => rest.foldl min a

/-- Maximum entry of a 2-d float array, `arr.max()`. -/
def npmax (m : List (List ℚ)) : ℚ :=
  match m.flatten with
  | [] => 0
  | a :: rest => rest.foldl max a

/-- `np.linspace(a, b, n)`: `n` evenly spaced samples from `a` to `b`
inclusive; a single sample is `a`; step `(b - a) / (n - 1)` otherwise. -/
def linspace (a b : ℚ) (n : ℕ) : List ℚ :=
  if n ≤ 1 then (List.range n).map fun _ => a
  else (List.range n).map fun (i : ℕ) => a + (i : ℚ) * ((b - a) / ((n : ℚ) - 1))

/-- `transform.GridData`: the resampled grid properties. -/
structure GridData where
  y_values : List ℚ
  x_values : List ℚ
  grid_y_values : List (List ℚ)
  grid_x_values : List (List ℚ)

/-- `transform._get_regular_grid_from_data`: target axes are `linspace` over
the source min/max with `len(source) * scale_factor` samples — note that
`len` of a 2-d numpy array is its first-dimension length — and the query
grids are `np.meshgrid(x_values, y_values)`:
`grid_x[r][c] = x_values[c]`, `grid_y[r][c] = y_values[r]`. -/
def get_regular_grid_from_data (y_source x_source : List (List ℚ))
    (scale_factor : ℕ) : GridData :=
  let y_min := npmin y_source
  let y_max := npmax y_source
  let y_size := y_source.length * scale_factor
  let x_min := npmin x_source
  let x_max := npmax x_source
  let x_size := x_source.length * scale_factor
  let y_values := linspace y_min y_max y_size
  let x_values := linspace x_min x_max x_size
  let new_grid_x := y_values.map fun _ => x_values
  let new_grid_y := y_values.map fun y => x_values.map fun _ => y
  ⟨y_values, x_values, new_grid_y, new_grid_x⟩

/-- Pointwise evaluation of the interpolant at the two query-point arrays,
modelling `scipy.interpolate.griddata(points, values, (grid_y, grid_x))`:
the output has the query arrays' shape and the entry at `[r, c]` is the
interpolant at `(grid_y[r][c], grid_x[r][c])`. -/
def griddata_eval (F : ℚ → ℚ → ℚ) (gy gx : List (List ℚ)) :
    List (List ℚ) :=
  List.zipWith (fun ry rx => List.zipWith F ry rx) gy gx

/-- `np.flipud`: reverse the rows. -/
def flipud (m : List (List ℚ)) : List (List ℚ) :=
  m.reverse

/-- Row count of a 2-d array. -/
def nrowsM (m : List (List ℚ)) : ℕ := m.length

/-- Column count of a rectangular 2-d array (its first row's length). -/
def ncolsM (m : List (List ℚ)) : ℕ := (m.headD []).length

/-- `np.rot90(m, 3)`, one clockwise quarter turn: the result has shape
`(ncols, nrows)` and entry `[i][j] = m[nrows - 1 - j][i]`. -/
def rot90_3 (m : List (List ℚ)) : List (List ℚ) :=
  (List.range (ncolsM m)).map fun i =>
    (List.range (nrowsM m)).map fun j =>
      (m.getD (nrowsM m - 1 - j) []).getD i 0

/-- `transform.resample_to_regular_grid` (value part): build the target grid
from the 2-d `y`/`x` coordinate arrays, interpolate onto the meshgrid query
points, then `np.rot90(np.flipud(data_new), 3)`.  The resulting DataArray is
declared with dims `["x", "y"]` and coords `x_values` / `y_values`.
This definition models only the completing path — the value the code
returns when `griddata` succeeds; `resample_to_regular_grid_checked` below
models the `QhullError` raise on degenerate clouds, and every concrete
evaluation in the proofs uses a non-degenerate input. -/
def resample_to_regular_grid (F : ℚ → ℚ → ℚ) (lat lon : List (List ℚ))
    (scale_factor : ℕ) : List (List ℚ) :=
  let new_grid := get_regular_grid_from_data lat lon scale_factor
  let data_new := griddata_eval F new_grid.grid_y_values new_grid.grid_x_values
  rot90_3 (flipud data_new)

/-- Exceptions that the resampling stage can surface.  `qhullError` models
`scipy.spatial.QhullError`, which `griddata(..., method="linear")` raises
when its scattered input points admit no triangulation (fewer than 3 points,
or all points collinear); the repository defines no exception type of its
own and `resample_to_regular_grid` has no try/except.
`insufficientDataError` is modelled from the spec: the spec's error taxonomy
names an `InsufficientDataError`, but no such class exists anywhere in the
repository. -/
inductive ResampleException : Type
  | qhullError
  | insufficientDataError
deriving DecidableEq

/-- Whether three points are collinear (zero cross product). -/
def collinear3 (p q r : ℚ × ℚ) : Bool :=
  (q.1 - p.1) * (r.2 - p.2) - (q.2 - p.2) * (r.1 - p.1) == 0

/-- Whether every triple of input points is collinear, i.e. the point set
contains no 3 non-collinear points. -/
def all_collinear (pts : List (ℚ × ℚ)) : Bool :=
  pts.all fun p => pts.all fun q => pts.all fun r => collinear3 p q r

/-- Degenerate scattered input for a 2-d linear `griddata`: fewer than 3
points, or no 3 non-collinear points; Qhull refuses to triangulate these. -/
def qhull_degenerate (pts : List (ℚ × ℚ)) : Bool :=
  decide (pts.length < 3) || all_collinear pts

/-- `resample_to_regular_grid` with the library failure made explicit: on
degenerate input `griddata` raises `QhullError`, which propagates uncaught
(the function performs no error translation); otherwise it returns the
resampled grid. -/
def resample_to_regular_grid_checked (F : ℚ → ℚ → ℚ)
    (lat lon : List (List ℚ)) (scale_factor : ℕ) :
    Except ResampleException (List (List ℚ)) :=
  let pts := lat.flatten.zip lon.flatten
  if qhull_degenerate pts then .error .qhullError
  else .ok (resample_to_regular_grid F lat lon scale_factor)

/-! ### Trimming (`transform.minimize_data`) -/

/-- What `da.dropna("x", how="all")` evaluates to on dims `["x", "y"]`:
the rows that are not entirely NaN. -/
def dropna_x_all (g : Layer) : Layer :=
  g.filter fun row => !row.all Option.isNone

/-- What `da.dropna("y", how="all")` evaluates to: the columns that are not
entirely NaN. -/
def dropna_y_all (g : Layer) : Layer :=
  (g.transpose.filter fun col => !col.all Option.isNone).transpose

/-- `transform.minimize_data`: the source calls `da.dropna("x", how="all")`
and `da.dropna("y", how="all")` but discards both results (xarray `dropna`
returns a new object and is not in-place) and returns `da` itself. -/
def minimize_data (da : Layer) : Layer :=
  let _ := dropna_x_all da
  let _ := dropna_y_all da
  da

/-! ### Scene repository (`store.Repository`) -/

/-- A civil UTC datetime, the parse of the stored ISO-8601 string. -/
structure DateTime where
  year : Int
  month : Nat
  day : Nat
  hour : Nat
  minute : Nat
  second : Nat
deriving DecidableEq

/-- Days since 1970-01-01 of a proleptic-Gregorian civil date, as Python's
`datetime` date arithmetic defines it (Howard Hinnant's civil-days
algorithm; every division below acts on non-negative operands except the
era, which uses floor division). -/
def days_from_civil (y : Int) (m d : Nat) : Int :=
  let y : Int := if m ≤ 2 then y - 1 else y
  let era : Int := Int.fdiv y 400
  let yoe : Int := y - era * 400
  let mp : Int := if 2 < m then (m : Int) - 3 else (m : Int) + 9
  let doy : Int := (153 * mp + 2) / 5 + (d : Int) - 1
  let doe : Int := yoe * 365 + yoe / 4 - yoe / 100 + doy
  era * 146097 + doe - 719468

/-- Civil date `(year, month, day)` of a count of days since 1970-01-01
(inverse of `days_from_civil`). -/
def civil_from_days (z0 : Int) : Int × Int × Int :=
  let z := z0 + 719468
  let era : Int := Int.fdiv z 146097
  let doe : Int := z - era * 146097
  let yoe : Int := (doe - doe / 1460 + doe / 36524 - doe / 146096) / 365
  let y : Int := yoe + era * 400
  let doy : Int := doe - (365 * yoe + yoe / 4 - yoe / 100)
  let mp : Int := (5 * doy + 2) / 153
  let d : Int := doy - (153 * mp + 2) / 5 + 1
  let m : Int := if mp < 10 then mp + 3 else mp - 9
  (if m ≤ 2 then y + 1 else y, m, d)

/-- Seconds since the epoch of a UTC civil datetime. -/
def DateTime.toEpochSeconds (t : DateTime) : Int :=
  days_from_civil t.year t.month t.day * 86400
    + t.hour * 3600 + t.minute * 60 + t.second

/-- Zero-padded two-digit field of `strftime`. -/
def pad2 (n : Int) : String :=
  if n < 10 then "0" ++ toString n else toString n

/-- The date part `strftime("%Y-%m-%d")` of a civil date triple (years here
are four-digit, so `%Y` needs no extra padding). -/
def date_str (ymd : Int × Int × Int) : String :=
  toString ymd.1 ++ "-" ++ pad2 ymd.2.1 ++ "-" ++ pad2 ymd.2.2

/-- A stored hail-index layer as `Repository.store` sees it: its xarray
`name` (set by `get_hail_index` to `<site>_hail_index_<product_time>`), its
`product_time` attribute (the model keeps the parsed datetime rather than
the ISO string round-tripped through `datetime.fromisoformat`), and its
cell data, which `store` never inspects. -/
structure StoredLayer where
  name : String
  product_time : DateTime
  data : Layer

/-- The name `get_hail_index` gives a layer:
`<site_id>_hail_index_<product_time>`. -/
def hail_index_name (site_id product_time_iso : String) : String :=
  site_id ++ "_hail_index_" ++ product_time_iso

/-- `store.Repository`: a storage root and a collection subdirectory. -/
structure Repository where
  root : String
  sub : String

/-- The repository's base path `root / sub`, as path components. -/
def Repository.path (r : Repository) : List String :=
  [r.root, r.sub]

/-- `Repository.__get_cdt_iso_date`: interpret the acquisition time as UTC,
subtract a fixed 5 hours, and format the resulting calendar date. -/
def Repository.get_cdt_iso_date (iso_time : DateTime) : String :=
  let utc_secs := iso_time.toEpochSeconds
  let cdt_secs := utc_secs - 5 * 3600
  date_str (civil_from_days (Int.fdiv cdt_secs 86400))

/-- `Repository.store`: the destination path
`root / sub / <local-date> / <name>.nc` (the model returns the path
components; the NetCDF write itself is I/O and out of the value model). -/
def Repository.store (r : Repository) (da : StoredLayer) : List String :=
  let date_st := Repository.get_cdt_iso_date da.product_time
  r.path ++ [date_st, da.name ++ ".nc"]

/-! ## Proofs -/

section Proofs

attribute [local semireducible] Rat.add Rat.sub Rat.mul Rat.inv

/-! ### Shared helper lemmas -/

theorem filterMap_id_map_some (l : List ℚ) : (l.map some).filterMap id = l := by
  induction l with
  | nil => rfl
  | cons a t ih => simp [ih]

theorem nanmax_map_some (v : ℚ) (vs : List ℚ) :
    nanmax ((v :: vs).map some) = some (vs.foldl max v) := by
  unfold nanmax
  rw [filterMap_id_map_some]

theorem nansum_single (o : Option ℚ) : nansum [o] = o.getD 0 := by
  cases o <;> simp [nansum]

theorem elementwise_getD {β : Type} (d : β) (f : List (Option ℚ) → β)
    (gs : List Layer) (i j : ℕ)
    (hi : i < (gs.headD []).length) (hj : j < ((gs.headD []).headD []).length) :
    ((elementwise f gs).getD i []).getD j d = f (gs.map fun g => cellO g i j) := by
  have h1 : (elementwise f gs).getD i [] =
      (List.range ((gs.headD []).headD []).length).map
        fun j => f (gs.map fun g => cellO g i j) := by
    unfold elementwise
    rw [List.getD_eq_getElem _ _ (by simpa using hi)]
    simp
  rw [h1, List.getD_eq_getElem _ _ (by simpa using hj)]
  simp

theorem elementwise_length {β : Type} (f : List (Option ℚ) → β) (gs : List Layer) :
    (elementwise f gs).length = (gs.headD []).length := by
  simp [elementwise]

theorem elementwise_row_length {β : Type} (f : List (Option ℚ) → β)
    (gs : List Layer) :
    ∀ row ∈ elementwise f gs, row.length = ((gs.headD []).headD []).length := by
  intro row hrow
  unfold elementwise at hrow
  rcases List.mem_map.mp hrow with ⟨i, _, rfl⟩
  simp

/-! ### C4: hail index -/

/-- C4: for every cell value c of the input classification array,
`get_hail_index` maps c to 0 when c < 10 or c > 12, and to c − 9 otherwise;
out-of-range codes become hail index 0, not no-data. -/
theorem get_hail_index_spec (da : List (List Int)) :
    get_hail_index da =
      da.map fun row => row.map fun c =>
        if c < 10 ∨ 12 < c then 0 else c - 9 := by
  simp only [get_hail_index, List.map_map]
  refine List.map_congr_left fun row _ => ?_
  simp only [Function.comp_apply, List.map_map]
  refine List.map_congr_left fun c _ => ?_
  simp only [Function.comp_apply, HAIL_CLASSIFICATION_RANGE]
  by_cases h1 : (10 : Int) ≤ c
  · by_cases h2 : c ≤ (12 : Int)
    · rw [if_neg (show ¬(c < 10 ∨ 12 < c) by omega)]
      simp [h1, h2]
    · rw [if_pos (show c < 10 ∨ 12 < c by omega)]
      simp [h1, h2]
  · rw [if_pos (show c < 10 ∨ 12 < c by omega)]
    simp [h1]

/-! ### C7: minimize_data -/

/-- C7 (amended): `minimize_data` returns its input unchanged — the two
`dropna` results are discarded — so no edge or interior rows/columns are
ever removed and every cell is preserved; the discarded `dropna("x")`
result would in fact have removed the all-no-data edge row. -/
theorem minimize_data_identity :
    (∀ g : Layer, minimize_data g = g) ∧
      dropna_x_all [[none, none], [some 1, some 2]] = [[some 1, some 2]] :=
  ⟨fun _ => rfl, by decide⟩

/-- C7 counterexample: an edge row that is entirely no-data is not removed;
`minimize_data` returns the grid unchanged instead of the trimmed grid. -/
theorem minimize_data_counterexample :
    minimize_data [[none, none], [some 1, some 2]] =
        [[none, none], [some 1, some 2]] ∧
      minimize_data [[none, none], [some 1, some 2]] ≠ [[some 1, some 2]] := by
  exact ⟨rfl, by decide⟩

/-! ### Key-extremum helpers and C10 -/

theorem foldl_min_eq_of_all {α : Type} (rest : List (ℕ × α)) (c : ℕ) :
    ∀ acc, (∀ q ∈ rest, q.1 = c) → acc = c →
      rest.foldl (fun m q => min m q.1) acc = c := by
  induction rest with
  | nil => intro acc _ hacc; exact hacc
  | cons q t ih =>
    intro acc hall hacc
    simp only [List.foldl_cons]
    exact ih _ (fun p hp => hall p (List.mem_cons_of_mem _ hp))
      (by rw [hacc, hall q (List.mem_cons_self _ _)]; simp)

theorem foldl_max_eq_of_all {α : Type} (rest : List (ℕ × α)) (c : ℕ) :
    ∀ acc, (∀ q ∈ rest, q.1 = c) → acc = c →
      rest.foldl (fun m q => max m q.1) acc = c := by
  induction rest with
  | nil => intro acc _ hacc; exact hacc
  | cons q t ih =>
    intro acc hall hacc
    simp only [List.foldl_cons]
    exact ih _ (fun p hp => hall p (List.mem_cons_of_mem _ hp))
      (by rw [hacc, hall q (List.mem_cons_self _ _)]; simp)

theorem minKey_eq_of_all {α : Type} (data : List (ℕ × α)) (c : ℕ)
    (hne : data ≠ []) (h : ∀ p ∈ data, p.1 = c) : minKey data = c := by
  cases data with
  | nil => exact absurd rfl hne
  | cons p rest =>
    unfold minKey
    exact foldl_min_eq_of_all rest c p.1
      (fun q hq => h q (List.mem_cons_of_mem _ hq))
      (h p (List.mem_cons_self _ _))

theorem maxKey_eq_of_all {α : Type} (data : List (ℕ × α)) (c : ℕ)
    (hne : data ≠ []) (h : ∀ p ∈ data, p.1 = c) : maxKey data = c := by
  cases data with
  | nil => exact absurd rfl hne
  | cons p rest =>
    unfold maxKey
    exact foldl_max_eq_of_all rest c p.1
      (fun q hq => h q (List.mem_cons_of_mem _ hq))
      (h p (List.mem_cons_self _ _))

/-- C10: for every non-empty input mapping whose timestamps are all equal
(in particular a day with a single scene), `slice_by_time` returns the empty
mapping: `min = max`, the `while start < end` loop never runs, no bucket is
created, and the scene is assigned to no bucket. -/
theorem slice_by_time_equal_times_empty {α : Type} (data : List (ℕ × α))
    (delta c : ℕ) (hne : data ≠ []) (hall : ∀ p ∈ data, p.1 = c) :
    slice_by_time data delta = [] := by
  unfold slice_by_time
  rw [minKey_eq_of_all data c hne hall, maxKey_eq_of_all data c hne hall]
  rw [slice_loop]
  rw [dif_neg (by omega)]

/-- C10 witness: a day holding exactly one scene produces no buckets at all. -/
theorem slice_by_time_equal_times_empty_witness :
    slice_by_time [((5 : ℕ), (1 : ℕ))] 5 = [] :=
  slice_by_time_equal_times_empty [(5, 1)] 5 5 (by decide) (by decide)

/-! ### C2: per-bucket max reduction -/

/-- C2: for every non-empty bucket, the per-bucket reduction is the
elementwise maximum over all layers assigned to that bucket: at any in-range
cell where every stacked layer holds a value, the reduced cell holds the
maximum of those values (so values 1 and 3 reduce to 3, not 4 and not 2). -/
theorem bucket_reduction_elementwise_max (layers : List Layer) (i j : ℕ)
    (v : ℚ) (vs : List ℚ)
    (hi : i < (layers.headD []).length)
    (hj : j < ((layers.headD []).headD []).length)
    (hcells : (layers.map fun L => cellO L i j) = (v :: vs).map some) :
    cellO (concat_max layers) i j = some (vs.foldl max v) := by
  have h0 : cellO (concat_max layers) i j =
      ((elementwise nanmax layers).getD i []).getD j none := rfl
  rw [h0, elementwise_getD none nanmax layers i j hi hj, hcells,
    nanmax_map_some]

/-- C2 witness: two scenes in one bucket carrying cell values 1 and 3 at the
same location reduce to 3. -/
theorem bucket_reduction_elementwise_max_witness :
    cellO (concat_max [[[some 1]], [[some 3]]]) 0 0 = some 3 := by
  have h := bucket_reduction_elementwise_max [[[some 1]], [[some 3]]] 0 0
    1 [3] (by decide) (by decide) (by rfl)
  rw [h]
  decide

/-! ### C3: mosaic of the buckets -/

theorem reduce_slices_of_mem_nil (ss : List (List Layer)) (h : [] ∈ ss) :
    reduce_slices ss = .error .emptyConcat := by
  induction ss with
  | nil => cases h
  | cons b rest ih =>
    rw [reduce_slices]
    rcases List.mem_cons.mp h with hb | hb
    · rw [← hb]
      rfl
    · cases hcm : concat_max_e b with
      | error e => cases e; rfl
      | ok g => rw [ih hb]; rfl

theorem elementwise_headD_length {β : Type} (f : List (Option ℚ) → β)
    (gs : List Layer) (hne : (gs.headD []).length ≠ 0) :
    ((elementwise f gs).headD []).length = ((gs.headD []).headD []).length := by
  cases hE : elementwise f gs with
  | nil =>
    have hlen := elementwise_length f gs
    rw [hE] at hlen
    exact absurd hlen.symm hne
  | cons r t =>
    have hr : r ∈ elementwise f gs := by
      rw [hE]; exact List.mem_cons_self _ _
    simpa using elementwise_row_length f gs r hr

theorem sum_layers_single (g : Layer)
    (hrect : ∀ row ∈ g, row.length = (g.headD []).length) :
    sum_layers [g] = fillZero g := by
  simp only [sum_layers, fillZero, elementwise, List.headD_cons]
  apply List.ext_getElem
  · simp
  · intro i h1 h2
    have hi : i < g.length := by simpa using h1
    simp only [List.getElem_map, List.getElem_range]
    apply List.ext_getElem
    · simp only [List.length_map, List.length_range,
        hrect (g[i]) (List.getElem_mem hi)]
    · intro j hj1 hj2
      have hj : j < (g[i]).length := by simpa using hj2
      have hc : cellO g i j = g[i][j] := by
        unfold cellO
        rw [List.getD_eq_getElem _ _ hi, List.getD_eq_getElem _ _ hj]
      simp only [List.getElem_map, List.getElem_range, List.map_cons,
        List.map_nil]
      rw [nansum_single, hc]

theorem concat_max_rect (bucket : List Layer) :
    ∀ row ∈ concat_max bucket,
      row.length = ((concat_max bucket).headD []).length := by
  unfold concat_max
  intro row hr
  by_cases h0 : (bucket.headD []).length = 0
  · have hnil : elementwise nanmax bucket = [] := by
      have hlen := elementwise_length nanmax bucket
      rw [h0] at hlen
      exact List.length_eq_zero.mp hlen
    rw [hnil] at hr
    cases hr
  · rw [elementwise_headD_length nanmax bucket h0]
    exact elementwise_row_length nanmax bucket row hr

/-- C3 (amended): a bucket containing no layers is not valid — it makes the
reduction stage fail with the xarray empty-concat error, aborting the day’s
mosaic instead of contributing nothing; and for a day whose span yields
exactly one bucket, the mosaic equals that bucket’s max-reduced grid at
every cell holding a value, while the skipna sum turns the reduced grid’s
no-data cells into 0. -/
theorem mosaic_single_and_empty_buckets :
    (∀ ss : List (List Layer), [] ∈ ss →
        mosaic_of_slices ss = .error .emptyConcat) ∧
    (∀ bucket : List Layer, bucket ≠ [] →
        mosaic_of_slices [bucket] = .ok (fillZero (concat_max bucket))) := by
  constructor
  · intro ss h
    unfold mosaic_of_slices
    rw [reduce_slices_of_mem_nil ss h]
    rfl
  · intro bucket hb
    have h1 : reduce_slices [bucket] = .ok [concat_max bucket] := by
      rw [reduce_slices, show concat_max_e bucket = .ok (concat_max bucket)
        from by simp [concat_max_e, List.isEmpty_iff, hb]]
      rfl
    unfold mosaic_of_slices
    rw [h1]
    have h2 : concat_sum_e [concat_max bucket] =
        .ok (sum_layers [concat_max bucket]) := by
      simp [concat_sum_e]
    show concat_sum_e [concat_max bucket] = _
    rw [h2, sum_layers_single (concat_max bucket) (concat_max_rect bucket)]

/-- C3 witness: an empty bucket aborts the mosaic; a day with exactly one
bucket holding one layer `[[1, NaN]]` yields the mosaic `[[1, 0]]`. -/
theorem mosaic_single_and_empty_buckets_witness :
    mosaic_of_slices [[], [[[some 1, none]]]] = .error .emptyConcat ∧
    mosaic_of_slices [[[[some 1, none]]]] = .ok [[1, 0]] := by
  constructor
  · exact mosaic_single_and_empty_buckets.1 [[], [[[some 1, none]]]]
      (List.mem_cons_self _ _)
  · rw [mosaic_single_and_empty_buckets.2 [[[some 1, none]]] (by decide)]
    rfl

/-- C3 counterexample: at the concrete slices `[[], [L]]` with
`L = [[1, NaN]]` the empty bucket raises instead of contributing nothing,
and at the single-bucket slices `[[L]]` the mosaic `[[1, 0]]` differs from
the bucket’s max-reduced grid `[[some 1, none]]` at the no-data cell. -/
theorem mosaic_empty_bucket_counterexample :
    mosaic_of_slices [[], [[[some 1, none]]]] = .error .emptyConcat ∧
    mosaic_of_slices [[[[some 1, none]]]] = .ok [[1, 0]] ∧
    concat_max [[[some 1, none]]] ≠ [[some 1, some 0]] := by
  refine ⟨rfl, rfl, by decide⟩

/-! ### C1: the bucketing loop in closed form -/

theorem numWindows_succ (start stop delta : ℕ) (hd : 0 < delta)
    (hlt : start < stop) :
    numWindows start stop delta = numWindows (start + delta) stop delta + 1 := by
  unfold numWindows
  rcases le_or_lt stop (start + delta) with hle | hlt2
  · have h1 : stop - (start + delta) = 0 := by omega
    have h2 : stop - start + delta - 1 = (stop - start - 1) + delta := by omega
    rw [h1, h2, Nat.add_div_right _ hd, Nat.div_eq_of_lt (by omega),
      Nat.div_eq_of_lt (show 0 + delta - 1 < delta by omega)]
  · have h1 : stop - (start + delta) + delta - 1 =
        (stop - start - 1 - delta) + delta := by omega
    have h2 : stop - start + delta - 1 =
        ((stop - start - 1 - delta) + delta) + delta := by omega
    rw [h1, h2, Nat.add_div_right _ hd, Nat.add_div_right _ hd]

theorem slice_loop_closed {α : Type} (data : List (ℕ × α)) (delta : ℕ)
    (hd : 0 < delta) :
    ∀ n start stop, stop - start ≤ n →
      slice_loop data delta start stop =
        (List.range (numWindows start stop delta)).map fun k =>
          ((start + k * delta, start + k * delta + delta),
            matches_in data (start + k * delta) (start + k * delta + delta)) := by
  intro n
  induction n with
  | zero =>
    intro start stop h
    rw [slice_loop, dif_neg (by omega)]
    have hw : numWindows start stop delta = 0 := by
      unfold numWindows
      rw [show stop - start = 0 by omega]
      exact Nat.div_eq_of_lt (by omega)
    rw [hw]
    rfl
  | succ n ih =>
    intro start stop h
    by_cases hlt : start < stop
    · rw [slice_loop, dif_pos ⟨hd, hlt⟩, ih (start + delta) stop (by omega),
        numWindows_succ start stop delta hd hlt, List.range_succ_eq_map,
        List.map_cons, List.map_map]
      simp only [Nat.zero_mul, Nat.add_zero]
      congr 1
      refine List.map_congr_left fun k _ => ?_
      simp only [Function.comp_apply]
      have e : start + (k + 1) * delta = start + delta + k * delta := by ring
      simp only [Nat.succ_eq_add_one, e]
    · rw [slice_loop, dif_neg (by omega)]
      have hw : numWindows start stop delta = 0 := by
        unfold numWindows
        rw [show stop - start = 0 by omega]
        exact Nat.div_eq_of_lt (by omega)
      rw [hw]
      rfl

theorem countP_congr_list {α : Type} (l : List α) (p q : α → Bool)
    (h : ∀ a ∈ l, p a = q a) : l.countP p = l.countP q := by
  induction l with
  | nil => rfl
  | cons a t ih =>
    rw [List.countP_cons, List.countP_cons, h a (List.mem_cons_self _ _),
      ih fun b hb => h b (List.mem_cons_of_mem _ hb)]

theorem countP_range_single (n K : ℕ) :
    (List.range n).countP (fun k => decide (k = K)) = if K < n then 1 else 0 := by
  induction n with
  | zero => simp
  | succ n ih =>
    rw [List.range_succ, List.countP_append, ih]
    have hsing : List.countP (fun k => decide (k = K)) [n] =
        if n = K then 1 else 0 := by
      simp [List.countP_cons]
    rw [hsing]
    by_cases h1 : K < n
    · rw [if_pos h1, if_neg (show ¬ n = K by omega),
        if_pos (show K < n + 1 by omega)]
    · by_cases h2 : n = K
      · rw [if_neg h1, if_pos h2, if_pos (show K < n + 1 by omega)]
      · rw [if_neg h1, if_neg h2, if_neg (show ¬ K < n + 1 by omega)]

theorem foldl_min_le {α : Type} (rest : List (ℕ × α)) :
    ∀ acc, rest.foldl (fun m q => min m q.1) acc ≤ acc := by
  induction rest with
  | nil => intro acc; exact le_rfl
  | cons q t ih =>
    intro acc
    simp only [List.foldl_cons]
    exact le_trans (ih (min acc q.1)) (min_le_left _ _)

theorem foldl_min_le_mem {α : Type} (rest : List (ℕ × α)) (p : ℕ × α) :
    ∀ acc, p ∈ rest → rest.foldl (fun m q => min m q.1) acc ≤ p.1 := by
  induction rest with
  | nil => intro _ h; cases h
  | cons q t ih =>
    intro acc hmem
    simp only [List.foldl_cons]
    rcases List.mem_cons.mp hmem with hp | hp
    · subst hp
      exact le_trans (foldl_min_le t _) (min_le_right _ _)
    · exact ih _ hp

theorem minKey_le {α : Type} (data : List (ℕ × α)) (t : ℕ) (v : α)
    (h : (t, v) ∈ data) : minKey data ≤ t := by
  cases data with
  | nil => cases h
  | cons p rest =>
    unfold minKey
    rcases List.mem_cons.mp h with hp | hp
    · rw [show t = p.1 by rw [← hp]]
      exact foldl_min_le rest p.1
    · exact foldl_min_le_mem rest (t, v) p.1 hp

theorem window_mem_iff (delta t s k : ℕ) (hd : 0 < delta) (hst : s ≤ t) :
    (s + k * delta ≤ t ∧ t < s + k * delta + delta) ↔ k = (t - s) / delta := by
  constructor
  · rintro ⟨ha, hb⟩
    have h1 : k * delta ≤ t - s := by
      generalize hP : k * delta = P
      rw [hP] at ha
      omega
    have h2 : t - s < (k + 1) * delta := by
      have e : (k + 1) * delta = k * delta + delta := by ring
      rw [e]
      generalize hP : k * delta = P
      rw [hP] at hb
      omega
    have h3 : k ≤ (t - s) / delta := (Nat.le_div_iff_mul_le hd).mpr h1
    have h4 : (t - s) / delta < k + 1 := (Nat.div_lt_iff_lt_mul hd).mpr h2
    omega
  · rintro rfl
    have h1 : (t - s) / delta * delta ≤ t - s := Nat.div_mul_le_self _ _
    have h2 : t - s < ((t - s) / delta + 1) * delta := by
      have e := Nat.div_add_mod (t - s) delta
      have hm := Nat.mod_lt (t - s) hd
      have e2 : ((t - s) / delta + 1) * delta =
          delta * ((t - s) / delta) + delta := by ring
      rw [e2]
      omega
    have e3 : ((t - s) / delta + 1) * delta =
        (t - s) / delta * delta + delta := by ring
    rw [e3] at h2
    generalize hP : (t - s) / delta * delta = P
    rw [hP] at h1 h2
    omega

theorem div_lt_iff_lt_add (delta t s n : ℕ) (hd : 0 < delta) (hst : s ≤ t) :
    (t - s) / delta < n ↔ t < s + n * delta := by
  rw [Nat.div_lt_iff_lt_mul hd]
  generalize n * delta = P
  omega

/-- C1 (amended): walking forward from min(time), `slice_by_time` creates
exactly the half-open windows `[min + kΔ, min + (k+1)Δ)` for the
`⌈(max − min)/Δ⌉` values of k — i.e. while the window start is strictly
below max(time) — each holding exactly the layers whose time lies in it;
consequently a layer lies in exactly one bucket when its time is below the
last window boundary and in no bucket otherwise.  In the 00:00/00:03/00:07/
00:10 example with a 5-minute window only the buckets `[00:00, 00:05)` with
t0, t1 and `[00:05, 00:10)` with t2 are produced: no bucket `[00:10, 00:15)`
is created and the layer at max(time) = 00:10 belongs to no bucket. -/
theorem slice_by_time_closed_form {α : Type} (data : List (ℕ × α))
    (delta : ℕ) (hd : 0 < delta) :
    slice_by_time data delta =
      ((List.range (numWindows (minKey data) (maxKey data) delta)).map fun k =>
        ((minKey data + k * delta, minKey data + k * delta + delta),
          matches_in data (minKey data + k * delta)
            (minKey data + k * delta + delta))) ∧
    ∀ t (v : α), (t, v) ∈ data →
      ((slice_by_time data delta).countP fun b =>
          decide (b.1.1 ≤ t ∧ t < b.1.2)) =
        if t < minKey data +
            numWindows (minKey data) (maxKey data) delta * delta
        then 1 else 0 := by
  have hclosed := slice_loop_closed data delta hd
    (maxKey data - minKey data) (minKey data) (maxKey data) le_rfl
  refine ⟨hclosed, ?_⟩
  intro t v htv
  have hmin : minKey data ≤ t := minKey_le data t v htv
  have step1 : ((slice_by_time data delta).countP fun b =>
      decide (b.1.1 ≤ t ∧ t < b.1.2)) =
      (List.range (numWindows (minKey data) (maxKey data) delta)).countP
        (fun k => decide (k = (t - minKey data) / delta)) := by
    rw [show slice_by_time data delta = _ from hclosed, List.countP_map]
    exact countP_congr_list _ _ _ fun k _ =>
      decide_eq_decide.mpr (window_mem_iff delta t (minKey data) k hd hmin)
  rw [step1, countP_range_single,
    if_congr (div_lt_iff_lt_add delta t (minKey data)
      (numWindows (minKey data) (maxKey data) delta) hd hmin) rfl rfl]

/-- C1 witness: the spec example at times 0, 3, 7, 10 minutes with a
5-minute window, via the closed form: two buckets are produced and the
number of buckets whose window holds the time 10 is zero. -/
theorem slice_by_time_closed_form_witness :
    slice_by_time [(0, 0), (3, 1), (7, 2), (10, 3)] 5 =
        [((0, 5), [0, 1]), ((5, 10), [2])] ∧
      ((slice_by_time [(0, 0), (3, 1), (7, 2), (10, 3)] 5).countP fun b =>
          decide (b.1.1 ≤ 10 ∧ 10 < b.1.2)) = 0 := by
  have h := slice_by_time_closed_form [(0, 0), (3, 1), (7, 2), (10, 3)] 5
    (by decide)
  constructor
  · rw [h.1]
    decide
  · rw [h.2 10 3 (by decide)]
    decide

/-- C1 counterexample: at the spec example — times 0, 3, 7, 10 minutes,
window 5 minutes — the produced buckets are [0,5) and [5,10) only: no bucket
[10,15) exists and the layer stamped 10 = max(time) is in no bucket, against
the claimed three buckets covering every layer. -/
theorem slice_by_time_example_counterexample :
    slice_by_time [(0, 0), (3, 1), (7, 2), (10, 3)] 5 =
        [((0, 5), [0, 1]), ((5, 10), [2])] ∧
      (∀ b ∈ slice_by_time [(0, 0), (3, 1), (7, 2), (10, 3)] 5,
        b.1 ≠ ((10 : ℕ), (15 : ℕ))) ∧
      ∀ b ∈ slice_by_time [(0, 0), (3, 1), (7, 2), (10, 3)] 5,
        (3 : ℕ) ∉ b.2 := by
  have h := slice_loop_closed [(0, 0), (3, 1), (7, 2), (10, 3)] 5
    (by decide) 10 0 10 (by decide)
  have e : slice_by_time [(0, 0), (3, 1), (7, 2), (10, 3)] 5 =
      slice_loop [(0, 0), (3, 1), (7, 2), (10, 3)] 5 0 10 := rfl
  rw [e, h]
  decide

/-! ### C5 and C6: resampling shape, axes and orientation -/

theorem getD_map_range {β : Type} (d : β) (n i : ℕ) (f : ℕ → β)
    (h : i < n) : ((List.range n).map f).getD i d = f i := by
  rw [List.getD_eq_getElem _ _ (by simpa using h)]
  simp

theorem getD_map_of_lt {γ β : Type} (d : β) (g : γ → β) (l : List γ)
    (dg : γ) (i : ℕ) (h : i < l.length) :
    (l.map g).getD i d = g (l.getD i dg) := by
  rw [List.getD_eq_getElem _ _ (by simpa using h),
    List.getD_eq_getElem _ _ h]
  simp

theorem getD_reverse {β : Type} (l : List β) (d : β) (i : ℕ)
    (h : i < l.length) :
    l.reverse.getD i d = l.getD (l.length - 1 - i) d := by
  rw [List.getD_eq_getElem _ _ (by simpa using h),
    List.getD_eq_getElem _ _ (by omega)]
  rw [List.getElem_reverse]

theorem zipWith_map_const (F : ℚ → ℚ → ℚ) (y : ℚ) (xv : List ℚ) :
    List.zipWith F (xv.map fun _ => y) xv = xv.map (F y) := by
  induction xv with
  | nil => rfl
  | cons x xs ih => simp only [List.map_cons, List.zipWith_cons_cons, ih]

theorem griddata_meshgrid (F : ℚ → ℚ → ℚ) (yv xv : List ℚ) :
    griddata_eval F (yv.map fun y => xv.map fun _ => y)
        (yv.map fun _ => xv) = yv.map fun y => xv.map (F y) := by
  unfold griddata_eval
  induction yv with
  | nil => rfl
  | cons y ys ih => simp only [List.map_cons, List.zipWith_cons_cons,
      zipWith_map_const, ih]

theorem gd_y_values (lat lon : List (List ℚ)) (S : ℕ) :
    (get_regular_grid_from_data lat lon S).y_values =
      linspace (npmin lat) (npmax lat) (lat.length * S) := rfl

theorem gd_x_values (lat lon : List (List ℚ)) (S : ℕ) :
    (get_regular_grid_from_data lat lon S).x_values =
      linspace (npmin lon) (npmax lon) (lon.length * S) := rfl

theorem resample_rows (F : ℚ → ℚ → ℚ) (lat lon : List (List ℚ)) (S : ℕ) :
    resample_to_regular_grid F lat lon S =
      rot90_3 (flipud ((get_regular_grid_from_data lat lon S).y_values.map
        fun y => (get_regular_grid_from_data lat lon S).x_values.map (F y))) := by
  show rot90_3 (flipud (griddata_eval F
    ((get_regular_grid_from_data lat lon S).y_values.map fun y =>
      (get_regular_grid_from_data lat lon S).x_values.map fun _ => y)
    ((get_regular_grid_from_data lat lon S).y_values.map fun _ =>
      (get_regular_grid_from_data lat lon S).x_values))) = _
  rw [griddata_meshgrid]

theorem linspace_length (a b : ℚ) (n : ℕ) : (linspace a b n).length = n := by
  unfold linspace
  split <;> rw [List.length_map, List.length_range]

theorem linspace_sorted (a b : ℚ) (n : ℕ) (hab : a < b) :
    (linspace a b n).Pairwise (· < ·) := by
  unfold linspace
  split
  · rename_i hn
    rcases Nat.le_one_iff_eq_zero_or_eq_one.mp hn with rfl | rfl <;> simp
  · rename_i hn
    have h2 : 2 ≤ n := by omega
    have hstep : (0 : ℚ) < (b - a) / ((n : ℚ) - 1) := by
      apply div_pos (by linarith)
      have hc : (2 : ℚ) ≤ (n : ℚ) := by exact_mod_cast h2
      linarith
    refine List.Pairwise.map _ ?_ (List.pairwise_lt_range n)
    intro i j hij
    have hc : (i : ℚ) < (j : ℚ) := by exact_mod_cast hij
    have hm := mul_lt_mul_of_pos_right hc hstep
    linarith

theorem rot90_3_length (m : List (List ℚ)) :
    (rot90_3 m).length = ncolsM m := by
  simp [rot90_3]

theorem rot90_3_row_length (m : List (List ℚ)) :
    ∀ row ∈ rot90_3 m, row.length = nrowsM m := by
  intro row h
  unfold rot90_3 at h
  rcases List.mem_map.mp h with ⟨i, _, rfl⟩
  simp

theorem ncolsM_flipud_rows (rows : List (List ℚ)) (c : ℕ) (hne : rows ≠ [])
    (hall : ∀ r ∈ rows, r.length = c) : ncolsM (flipud rows) = c := by
  unfold ncolsM flipud
  cases hrev : rows.reverse with
  | nil => exact absurd (List.reverse_eq_nil_iff.mp hrev) hne
  | cons r t =>
    have hmem : r ∈ rows := List.mem_reverse.mp
      (hrev ▸ List.mem_cons_self r t)
    simpa using hall r hmem

theorem all_false_exists {γ : Type} (l : List γ) (p : γ → Bool)
    (h : l.all p = false) : ∃ x ∈ l, p x = false := by
  induction l with
  | nil => simp at h
  | cons a t ih =>
    rw [List.all_cons] at h
    cases hpa : p a
    · exact ⟨a, List.mem_cons_self _ _, hpa⟩
    · rw [hpa, Bool.true_and] at h
      obtain ⟨x, hx, hpx⟩ := ih h
      exact ⟨x, List.mem_cons_of_mem _ hx, hpx⟩

theorem foldl_min_q_le (l : List ℚ) : ∀ acc : ℚ, l.foldl min acc ≤ acc := by
  induction l with
  | nil => intro acc; exact le_rfl
  | cons a t ih =>
    intro acc
    simp only [List.foldl_cons]
    exact le_trans (ih (min acc a)) (min_le_left _ _)

theorem foldl_min_q_le_mem (l : List ℚ) (x : ℚ) :
    ∀ acc : ℚ, x ∈ l → l.foldl min acc ≤ x := by
  induction l with
  | nil => intro _ h; cases h
  | cons a t ih =>
    intro acc hmem
    simp only [List.foldl_cons]
    rcases List.mem_cons.mp hmem with rfl | hx
    · exact le_trans (foldl_min_q_le t _) (min_le_right _ _)
    · exact ih _ hx

theorem le_foldl_max_q (l : List ℚ) : ∀ acc : ℚ, acc ≤ l.foldl max acc := by
  induction l with
  | nil => intro acc; exact le_rfl
  | cons a t ih =>
    intro acc
    simp only [List.foldl_cons]
    exact le_trans (le_max_left _ _) (ih (max acc a))

theorem le_foldl_max_q_mem (l : List ℚ) (x : ℚ) :
    ∀ acc : ℚ, x ∈ l → x ≤ l.foldl max acc := by
  induction l with
  | nil => intro _ h; cases h
  | cons a t ih =>
    intro acc hmem
    simp only [List.foldl_cons]
    rcases List.mem_cons.mp hmem with rfl | hx
    · exact le_trans (le_max_right _ _) (le_foldl_max_q t _)
    · exact ih _ hx

theorem npmin_le (m : List (List ℚ)) (x : ℚ) (h : x ∈ m.flatten) :
    npmin m ≤ x := by
  cases hfl : m.flatten with
  | nil => rw [hfl] at h; cases h
  | cons a rest =>
    rw [hfl] at h
    have e : npmin m = rest.foldl min a := by unfold npmin; rw [hfl]
    rw [e]
    rcases List.mem_cons.mp h with rfl | hx
    · exact foldl_min_q_le rest x
    · exact foldl_min_q_le_mem rest x a hx

theorem le_npmax (m : List (List ℚ)) (x : ℚ) (h : x ∈ m.flatten) :
    x ≤ npmax m := by
  cases hfl : m.flatten with
  | nil => rw [hfl] at h; cases h
  | cons a rest =>
    rw [hfl] at h
    have e : npmax m = rest.foldl max a := by unfold npmax; rw [hfl]
    rw [e]
    rcases List.mem_cons.mp h with rfl | hx
    · exact le_foldl_max_q rest x
    · exact le_foldl_max_q_mem rest x a hx

theorem npmin_lt_npmax_of_pair (m : List (List ℚ)) (a b : ℚ)
    (ha : a ∈ m.flatten) (hb : b ∈ m.flatten) (hab : a ≠ b) :
    npmin m < npmax m :=
  calc npmin m ≤ min a b := le_min (npmin_le m a ha) (npmin_le m b hb)
    _ < max a b := min_lt_max.mpr hab
    _ ≤ npmax m := max_le (le_npmax m a ha) (le_npmax m b hb)

theorem nondegenerate_facts (lat lon : List (List ℚ))
    (h : qhull_degenerate (lat.flatten.zip lon.flatten) = false) :
    (npmin lat < npmax lat ∧ npmin lon < npmax lon) ∧ lat ≠ [] ∧ lon ≠ [] := by
  have hor : decide ((lat.flatten.zip lon.flatten).length < 3) = false ∧
      all_collinear (lat.flatten.zip lon.flatten) = false := by
    have hh := h
    unfold qhull_degenerate at hh
    constructor
    · cases hd : decide ((lat.flatten.zip lon.flatten).length < 3)
      · rfl
      · rw [hd, Bool.true_or] at hh; cases hh
    · cases hc : all_collinear (lat.flatten.zip lon.flatten)
      · rfl
      · rw [hc, Bool.or_true] at hh; cases hh
  have hlen : 3 ≤ (lat.flatten.zip lon.flatten).length := by
    have hnl := of_decide_eq_false hor.1
    omega
  rw [List.length_zip] at hlen
  obtain ⟨hlatlen, hlonlen⟩ := le_min_iff.mp hlen
  have hlatne : lat ≠ [] := by
    intro hl
    rw [hl] at hlatlen
    simp at hlatlen
  have hlonne : lon ≠ [] := by
    intro hl
    rw [hl] at hlonlen
    simp at hlonlen
  obtain ⟨⟨p1, p2⟩, hp, hpf⟩ := all_false_exists _ _ hor.2
  obtain ⟨⟨q1, q2⟩, hq, hqf⟩ := all_false_exists _ _ hpf
  obtain ⟨⟨r1, r2⟩, hr, hrf⟩ := all_false_exists _ _ hqf
  simp only [collinear3] at hrf
  have hcross : (q1 - p1) * (r2 - p2) - (q2 - p2) * (r1 - p1) ≠ 0 := by
    intro hz
    rw [hz] at hrf
    simp at hrf
  have hpy : p1 ∈ lat.flatten := (List.of_mem_zip hp).1
  have hpx : p2 ∈ lon.flatten := (List.of_mem_zip hp).2
  have hqy : q1 ∈ lat.flatten := (List.of_mem_zip hq).1
  have hqx : q2 ∈ lon.flatten := (List.of_mem_zip hq).2
  have hry : r1 ∈ lat.flatten := (List.of_mem_zip hr).1
  have hrx : r2 ∈ lon.flatten := (List.of_mem_zip hr).2
  refine ⟨⟨?_, ?_⟩, hlatne, hlonne⟩
  · by_cases h1 : p1 = q1
    · by_cases h2 : p1 = r1
      · exact absurd (by rw [← h1, ← h2]; ring) hcross
      · exact npmin_lt_npmax_of_pair lat p1 r1 hpy hry h2
    · exact npmin_lt_npmax_of_pair lat p1 q1 hpy hqy h1
  · by_cases h1 : p2 = q2
    · by_cases h2 : p2 = r2
      · exact absurd (by rw [← h1, ← h2]; ring) hcross
      · exact npmin_lt_npmax_of_pair lon p2 r2 hpx hrx h2
    · exact npmin_lt_npmax_of_pair lon p2 q2 hpx hqx h1

theorem resample_shape_core (F : ℚ → ℚ → ℚ) (lat lon : List (List ℚ))
    (S : ℕ) (hS : 1 ≤ S) (hlat : lat ≠ []) (hlon : lon ≠ []) :
    (resample_to_regular_grid F lat lon S).length = lon.length * S ∧
    (∀ row ∈ resample_to_regular_grid F lat lon S,
      row.length = lat.length * S) ∧
    (npmin lat < npmax lat →
      ((get_regular_grid_from_data lat lon S).y_values).Pairwise (· < ·)) ∧
    (npmin lon < npmax lon →
      ((get_regular_grid_from_data lat lon S).x_values).Pairwise (· < ·)) := by
  have hylen : (get_regular_grid_from_data lat lon S).y_values.length =
      lat.length * S := by rw [gd_y_values, linspace_length]
  have hxlen : (get_regular_grid_from_data lat lon S).x_values.length =
      lon.length * S := by rw [gd_x_values, linspace_length]
  have hyne : (get_regular_grid_from_data lat lon S).y_values ≠ [] := by
    apply List.ne_nil_of_length_pos
    rw [hylen]
    exact Nat.mul_pos (List.length_pos.mpr hlat) hS
  refine ⟨?_, ?_, ?_, ?_⟩
  · rw [resample_rows, rot90_3_length]
    rw [ncolsM_flipud_rows _ (lon.length * S)
      (by simpa using hyne)
      (fun r hr => by
        rcases List.mem_map.mp hr with ⟨y, _, rfl⟩
        simpa using hxlen)]
  · intro row hrow
    rw [resample_rows] at hrow
    rw [rot90_3_row_length _ row hrow]
    simpa [nrowsM, flipud] using hylen
  · intro hlt
    rw [gd_y_values]
    exact linspace_sorted _ _ _ hlt
  · intro hlt
    rw [gd_x_values]
    exact linspace_sorted _ _ _ hlt

/-- C5 (amended): on every input on which resampling completes at all — a
cloud with at least 3 non-collinear points, the same non-degeneracy that
the linear interpolation requires — and upsample factor S ≥ 1, the checked
resampling returns a grid of shape (azimuth_count·S, azimuth_count·S):
both target sizes come from `len()` of the 2-d coordinate arrays, whose
first dimension is the azimuth count, not the range count; and both target
coordinate axes are strictly increasing (a non-degenerate cloud always
holds two distinct latitudes and two distinct longitudes). -/
theorem resample_shape_and_axes (F : ℚ → ℚ → ℚ) (lat lon : List (List ℚ))
    (S : ℕ) (hS : 1 ≤ S)
    (hnd : qhull_degenerate (lat.flatten.zip lon.flatten) = false) :
    resample_to_regular_grid_checked F lat lon S =
        .ok (resample_to_regular_grid F lat lon S) ∧
    (resample_to_regular_grid F lat lon S).length = lon.length * S ∧
    (∀ row ∈ resample_to_regular_grid F lat lon S,
      row.length = lat.length * S) ∧
    ((get_regular_grid_from_data lat lon S).y_values).Pairwise (· < ·) ∧
    ((get_regular_grid_from_data lat lon S).x_values).Pairwise (· < ·) := by
  obtain ⟨⟨hylt, hxlt⟩, hlat, hlon⟩ := nondegenerate_facts lat lon hnd
  have hcore := resample_shape_core F lat lon S hS hlat hlon
  refine ⟨?_, hcore.1, hcore.2.1, hcore.2.2.1 hylt, hcore.2.2.2 hxlt⟩
  simp [resample_to_regular_grid_checked, hnd]

/-- C5 witness: the non-degenerate 3-by-1 cloud with latitudes 0, 1, 2 and
longitudes 10, 20, 10 completes (no QhullError), and yields a 3-row grid
with strictly increasing axes. -/
theorem resample_shape_and_axes_witness :
    resample_to_regular_grid_checked (fun _ _ => (0 : ℚ)) [[0], [1], [2]]
        [[10], [20], [10]] 1 =
      .ok (resample_to_regular_grid (fun _ _ => (0 : ℚ)) [[0], [1], [2]]
        [[10], [20], [10]] 1) ∧
    (resample_to_regular_grid (fun _ _ => (0 : ℚ)) [[0], [1], [2]]
        [[10], [20], [10]] 1).length = 3 ∧
    ((get_regular_grid_from_data [[0], [1], [2]] [[10], [20], [10]]
        1).y_values).Pairwise (· < ·) := by
  have h := resample_shape_and_axes (fun _ _ => (0 : ℚ)) [[0], [1], [2]]
    [[10], [20], [10]] 1 (by decide) (by decide)
  exact ⟨h.1, h.2.1, h.2.2.2.1⟩

/-- C5 counterexample: the non-degenerate point cloud of shape (2, 3) —
azimuth count 2, range count 3, latitudes 0 and 1, longitudes 10, 20, 30 —
completes (no QhullError) yet resamples to a 2-by-2 grid, not the claimed
2-by-3 grid. -/
theorem resample_shape_counterexample :
    resample_to_regular_grid_checked (fun _ _ => (0 : ℚ))
        [[0, 0, 0], [1, 1, 1]] [[10, 20, 30], [10, 20, 30]] 1 =
      .ok (resample_to_regular_grid (fun _ _ => (0 : ℚ))
        [[0, 0, 0], [1, 1, 1]] [[10, 20, 30], [10, 20, 30]] 1) ∧
    (resample_to_regular_grid (fun _ _ => (0 : ℚ)) [[0, 0, 0], [1, 1, 1]]
        [[10, 20, 30], [10, 20, 30]] 1).map List.length = [2, 2] ∧
    ¬ (∀ row ∈ resample_to_regular_grid (fun _ _ => (0 : ℚ))
        [[0, 0, 0], [1, 1, 1]] [[10, 20, 30], [10, 20, 30]] 1,
        row.length = 3) := by
  refine ⟨rfl, by decide, by decide⟩

theorem rot90_flipud_rows_cell (F : ℚ → ℚ → ℚ) (yv xv : List ℚ) (i j : ℕ)
    (hj : j < yv.length) (hi : i < xv.length) :
    ((rot90_3 (flipud (yv.map fun y => xv.map (F y)))).getD i []).getD j 0 =
      F (yv.getD j 0) (xv.getD i 0) := by
  have hne : yv ≠ [] := by
    intro h
    rw [h] at hj
    simp at hj
  have hnc : ncolsM (flipud (yv.map fun y => xv.map (F y))) = xv.length := by
    apply ncolsM_flipud_rows _ _ (by simpa using hne)
    intro r hr
    rcases List.mem_map.mp hr with ⟨y, _, rfl⟩
    simp
  have hnr : nrowsM (flipud (yv.map fun y => xv.map (F y))) = yv.length := by
    simp [nrowsM, flipud]
  unfold rot90_3
  rw [getD_map_range _ _ _ _ (by rw [hnc]; exact hi)]
  rw [getD_map_range _ _ _ _ (by rw [hnr]; exact hj)]
  rw [hnr]
  unfold flipud
  rw [getD_reverse _ _ _ (by simp; omega)]
  rw [show (yv.map fun y => xv.map (F y)).length - 1 - (yv.length - 1 - j) = j
    from by simp; omega]
  rw [getD_map_of_lt _ _ _ 0 _ hj]
  rw [getD_map_of_lt _ _ _ 0 _ hi]

/-- C6 (amended): in the output of `resample_to_regular_grid`, longitude
varies along the first axis and latitude along the second: the cell at index
[i, j] holds the interpolant's value at (target_lat[j], target_lon[i]) —
the `flipud` + `rot90(·, 3)` pair is exactly a transpose of the `griddata`
result, whose own first axis is latitude — matching the DataArray's declared
dims `["x", "y"]`. -/
theorem resample_orientation (F : ℚ → ℚ → ℚ) (lat lon : List (List ℚ))
    (S i j : ℕ)
    (hj : j < (get_regular_grid_from_data lat lon S).y_values.length)
    (hi : i < (get_regular_grid_from_data lat lon S).x_values.length) :
    ((resample_to_regular_grid F lat lon S).getD i []).getD j 0 =
      F ((get_regular_grid_from_data lat lon S).y_values.getD j 0)
        ((get_regular_grid_from_data lat lon S).x_values.getD i 0) := by
  rw [resample_rows]
  exact rot90_flipud_rows_cell F _ _ i j hj hi

/-- C6 witness: on the non-degenerate cloud with target axes lat = [0, 1, 2]
and lon = [10, 15, 20] (which completes — no QhullError) and interpolant
F(y, x) = y + x, the cell [0, 1] holds F(lat[1], lon[0]) = 1 + 10 = 11. -/
theorem resample_orientation_witness :
    resample_to_regular_grid_checked (fun y x => y + x) [[0], [1], [2]]
        [[10], [20], [10]] 1 =
      .ok (resample_to_regular_grid (fun y x => y + x) [[0], [1], [2]]
        [[10], [20], [10]] 1) ∧
    ((resample_to_regular_grid (fun y x => y + x) [[0], [1], [2]]
        [[10], [20], [10]] 1).getD 0 []).getD 1 0 = 11 := by
  refine ⟨rfl, ?_⟩
  have h := resample_orientation (fun y x => y + x) [[0], [1], [2]]
    [[10], [20], [10]] 1 0 1 (by decide) (by decide)
  rw [h]
  decide

/-- C6 counterexample: on the same non-degenerate cloud (which completes —
no QhullError) with the interpolant F(y, x) = y (latitude itself), the cell
[0, 1] holds 1 = lat[1], not F(lat[0], lon[1]) = 0 as the claimed
latitude-along-first-axis orientation would require. -/
theorem resample_orientation_counterexample :
    resample_to_regular_grid_checked (fun y _ => y) [[0], [1], [2]]
        [[10], [20], [10]] 1 =
      .ok (resample_to_regular_grid (fun y _ => y) [[0], [1], [2]]
        [[10], [20], [10]] 1) ∧
    ((resample_to_regular_grid (fun y _ => y) [[0], [1], [2]]
        [[10], [20], [10]] 1).getD 0 []).getD 1 0 ≠
      (fun (y _ : ℚ) => y)
        ((get_regular_grid_from_data [[0], [1], [2]] [[10], [20], [10]]
          1).y_values.getD 0 0)
        ((get_regular_grid_from_data [[0], [1], [2]] [[10], [20], [10]]
          1).x_values.getD 1 0) := by
  refine ⟨rfl, by decide⟩

/-! ### C8: repository date bucketing and determinism -/

/-- C8: `store` computes the calendar-date bucket from the layer's UTC
acquisition time shifted by the fixed UTC−5 offset and returns the path
`root/<collection>/<local-date>/<name>`; the acquisition time
2024-01-02T03:00:00Z lands under local date 2024-01-01, and the path depends
only on the layer's name and product time — so identical (site, product,
time) inputs, which produce identical names, give the identical path on
every call. -/
theorem store_date_bucket_and_determinism :
    (∀ (r : Repository) (l₁ l₂ : StoredLayer), l₁.name = l₂.name →
        l₁.product_time = l₂.product_time → r.store l₁ = r.store l₂) ∧
    (∀ (r : Repository) (d : Layer),
        r.store ⟨hail_index_name "KDMX" "2024-01-02T03:00:00",
            ⟨2024, 1, 2, 3, 0, 0⟩, d⟩ =
          [r.root, r.sub, "2024-01-01",
            "KDMX_hail_index_2024-01-02T03:00:00.nc"]) := by
  constructor
  · intro r l₁ l₂ hn ht
    unfold Repository.store
    rw [hn, ht]
  · intro r d
    unfold Repository.store Repository.path
    rw [show Repository.get_cdt_iso_date ⟨2024, 1, 2, 3, 0, 0⟩ = "2024-01-01"
      from by decide]
    rw [show hail_index_name "KDMX" "2024-01-02T03:00:00" ++ ".nc" =
      "KDMX_hail_index_2024-01-02T03:00:00.nc" from by decide]
    rfl

/-- C8 witness: two layers with the same name and acquisition time but
different cell data store to the same path, and the concrete time
2024-01-02T03:00:00Z lands under the 2024-01-01 date directory. -/
theorem store_date_bucket_and_determinism_witness :
    Repository.store ⟨"repository", "hail_index"⟩
        ⟨hail_index_name "KDMX" "2024-01-02T03:00:00",
          ⟨2024, 1, 2, 3, 0, 0⟩, [[some 1]]⟩ =
      Repository.store ⟨"repository", "hail_index"⟩
        ⟨hail_index_name "KDMX" "2024-01-02T03:00:00",
          ⟨2024, 1, 2, 3, 0, 0⟩, [[none]]⟩ ∧
    Repository.store ⟨"repository", "hail_index"⟩
        ⟨hail_index_name "KDMX" "2024-01-02T03:00:00",
          ⟨2024, 1, 2, 3, 0, 0⟩, [[some 1]]⟩ =
      ["repository", "hail_index", "2024-01-01",
        "KDMX_hail_index_2024-01-02T03:00:00.nc"] :=
  ⟨store_date_bucket_and_determinism.1 ⟨"repository", "hail_index"⟩ _ _
      rfl rfl,
    store_date_bucket_and_determinism.2 ⟨"repository", "hail_index"⟩
      [[some 1]]⟩

/-! ### C9: degenerate resampling input -/

/-- C9 (amended): on every input point cloud with fewer than 3 non-collinear
points the linear `griddata` interpolation is undefined and scipy raises its
`QhullError`, which `resample_to_regular_grid` propagates uncaught — the
repository defines no `InsufficientDataError` and performs no error
translation — so the call does not return a grid and the error is the
library's, not a repository error kind. -/
theorem resample_degenerate_raises_qhull (F : ℚ → ℚ → ℚ)
    (lat lon : List (List ℚ)) (S : ℕ)
    (h : qhull_degenerate (lat.flatten.zip lon.flatten) = true) :
    resample_to_regular_grid_checked F lat lon S = .error .qhullError ∧
    resample_to_regular_grid_checked F lat lon S ≠
        .error .insufficientDataError ∧
    ∀ g, resample_to_regular_grid_checked F lat lon S ≠ .ok g := by
  unfold resample_to_regular_grid_checked
  rw [if_pos h]
  refine ⟨rfl, by simp, fun g => by simp⟩

/-- C9 witness: a two-point cloud is degenerate, so the checked resampling
surfaces the library's QhullError. -/
theorem resample_degenerate_raises_qhull_witness :
    resample_to_regular_grid_checked (fun _ _ => (0 : ℚ)) [[0], [1]]
        [[10], [20]] 1 = .error .qhullError :=
  (resample_degenerate_raises_qhull (fun _ _ => (0 : ℚ)) [[0], [1]]
    [[10], [20]] 1 (by decide)).1

/-- C9 counterexample: at the concrete degenerate cloud of three collinear
points (0,10), (1,20), (2,30) the failure is the interpolation library's
QhullError and in particular not an `InsufficientDataError`, which no code
in the repository defines or raises. -/
theorem resample_error_kind_counterexample :
    resample_to_regular_grid_checked (fun _ _ => (0 : ℚ)) [[0], [1], [2]]
        [[10], [20], [30]] 1 = .error .qhullError ∧
    resample_to_regular_grid_checked (fun _ _ => (0 : ℚ)) [[0], [1], [2]]
        [[10], [20], [30]] 1 ≠ .error .insufficientDataError := by
  constructor
  · rfl
  · intro hcontra
    have h1 : resample_to_regular_grid_checked (fun _ _ => (0 : ℚ))
        [[0], [1], [2]] [[10], [20], [30]] 1 = .error .qhullError := rfl
    rw [h1] at hcontra
    cases hcontra

end Proofs
